import Mathlib

/-!
Verification of the scaffolding task in `src/tasks.py` (repository AOC2019).

The single operation is the `invoke` task `newday`:

```
@task
def newday(c, day):
    day = int(day)
    c.run(f"mkdir -p puzzles/{day:d}/")
    if not os.path.exists(f"src/puzzles/day{day:d}.rs"):
        c.run(f"cp templates/dayn.rs src/puzzles/day{day:d}.rs")
```

We embed the filesystem as a finite map from paths (lists of components,
since no path component produced by the program contains a slash) to file
contents, together with the set of existing directories.  `mkdir -p` adds a
path and all of its ancestors to the directory set; `cp` requires the source
file to exist and the destination's parent directory to exist, and raises a
filesystem error otherwise (the shell command exits non-zero, which `c.run`
turns into an exception).  `int(day)` is embedded by `pyInt`, which follows
Python's parsing of integer literals from strings: surrounding whitespace is
stripped, an optional single sign is allowed, then decimal digits with
single underscores permitted between digits.  Errors carry the filesystem
state at the moment of failure, so that claims about partial effects of a
failing run can be stated.
-/

namespace Tasks

/-- A filesystem path, as its list of components. -/
abbrev FPath := List String

/-- Filesystem state: files (path with contents) and existing directories. -/
@[ext]
structure FS where
  files : List (FPath × String)
  dirs : List FPath
  deriving DecidableEq

/-- Look a path up in a file association list. -/
def lookupF : List (FPath × String) → FPath → Option String
  | [], _ => none
  | (q, c) :: rest, p => if q = p then some c else lookupF rest p

/-- Remove all entries for a path from a file association list. -/
def removeF : List (FPath × String) → FPath → List (FPath × String)
  | [], _ => []
  | (q, c) :: rest, p => if q = p then removeF rest p else (q, c) :: removeF rest p

/-- Write a file: replace any entry for `p` by contents `c`. -/
def setF (l : List (FPath × String)) (p : FPath) (c : String) : List (FPath × String) :=
  (p, c) :: removeF l p

/-- Contents of the file at `p`, when a file exists there. -/
def getFile (fs : FS) (p : FPath) : Option String := lookupF fs.files p

/-- `os.path.exists`: the path is a file or a directory. -/
def pathExists (fs : FS) (p : FPath) : Prop :=
  (getFile fs p).isSome = true ∨ p ∈ fs.dirs

instance decPathExists (fs : FS) (p : FPath) : Decidable (pathExists fs p) :=
  inferInstanceAs (Decidable ((getFile fs p).isSome = true ∨ p ∈ fs.dirs))

/-- Add a directory to the directory set if not already present. -/
def insertD (ds : List FPath) (q : FPath) : List FPath :=
  if q ∈ ds then ds else ds ++ [q]

/-- All ancestors of a path, innermost last (the path itself included). -/
def ancestors (p : FPath) : List FPath :=
  (List.range p.length).map (fun i => p.take (i + 1))

/-- `mkdir -p p`: create the directory `p` and all missing ancestors;
silent when they already exist. -/
def mkdirP (fs : FS) (p : FPath) : FS :=
  { fs with dirs := (ancestors p).foldl insertD fs.dirs }

/-- `cp src dst`: succeeds iff the source file exists and the destination's
parent directory exists (or `dst` has no parent); on success the destination
holds a byte-for-byte copy of the source. -/
def cp (fs : FS) (src dst : FPath) : Option FS :=
  (getFile fs src).bind (fun contents =>
    if dst.dropLast = [] ∨ dst.dropLast ∈ fs.dirs then
      some { fs with files := setF fs.files dst contents }
    else none)

/-- Errors of the `newday` task. -/
inductive NewDayError where
  | InvalidArgument
  | FilesystemError
  deriving DecidableEq

/-- `puzzles/{day:d}/` as a component path. -/
def dayDir (d : Int) : FPath := ["puzzles", toString d]

/-- `src/puzzles/day{day:d}.rs` as a component path. -/
def dayFile (d : Int) : FPath := ["src", "puzzles", "day" ++ toString d ++ ".rs"]

/-- `templates/dayn.rs` as a component path. -/
def templateFile : FPath := ["templates", "dayn.rs"]

/-- The body of `newday` after `day = int(day)` has succeeded: run
`mkdir -p puzzles/{day}/`, then copy the template to
`src/puzzles/day{day}.rs` unless that path already exists.  Errors carry
the filesystem state reached when the failure happens. -/
def newdayInt (fs : FS) (d : Int) : Except (NewDayError × FS) FS :=
  if pathExists (mkdirP fs (dayDir d)) (dayFile d) then
    Except.ok (mkdirP fs (dayDir d))
  else
    match cp (mkdirP fs (dayDir d)) templateFile (dayFile d) with
    | some fs2 => Except.ok fs2
    | none => Except.error (NewDayError.FilesystemError, mkdirP fs (dayDir d))

/-- Value of a decimal digit character. -/
def digitVal (c : Char) : Nat := c.toNat - 48

/-- Parse the digit part of a Python integer literal.  `mustDigit` is true
when the next character has to be a digit (at the start, and right after an
underscore); single underscores are allowed between digits. -/
def pyDigitsGo : List Char → Bool → Nat → Option Nat
  | [], mustDigit, acc => if mustDigit then none else some acc
  | c :: rest, mustDigit, acc =>
    if c.isDigit then pyDigitsGo rest false (10 * acc + digitVal c)
    else if c = '_' ∧ mustDigit = false then pyDigitsGo rest true acc
    else none

/-- Parse an unsigned run of digits, Python style. -/
def pyIntCore (cs : List Char) : Option Nat := pyDigitsGo cs true 0

/-- Strip leading and trailing whitespace. -/
def stripWs (cs : List Char) : List Char :=
  ((cs.dropWhile Char.isWhitespace).reverse.dropWhile Char.isWhitespace).reverse

/-- Python's `int(s)` on a string: strip whitespace, optional single sign,
then digits (underscores allowed between digits).  `none` models the
`ValueError` Python raises on unparseable input. -/
def pyInt (s : String) : Option Int :=
  match stripWs s.data with
  | '+' :: rest => (pyIntCore rest).map (fun n => (n : Int))
  | '-' :: rest => (pyIntCore rest).map (fun n => -(n : Int))
  | rest => (pyIntCore rest).map (fun n => (n : Int))

/-- The full `newday` task on a caller-supplied string argument. -/
def newday (fs : FS) (s : String) : Except (NewDayError × FS) FS :=
  match pyInt s with
  | none => Except.error (NewDayError.InvalidArgument, fs)
  | some d => newdayInt fs d

/-- The filesystem state after running `newday` for day `d`, whether the
run succeeded or failed. -/
def runNewday (fs : FS) (d : Int) : FS :=
  match newdayInt fs d with
  | Except.ok fs2 => fs2
  | Except.error e => e.2

/-- Initial repository state used for concrete witnesses: the template file
present, directories `src`, `src/puzzles` and `templates` in place, no
per-day files yet. -/
def fs0 : FS :=
  ⟨[(["templates", "dayn.rs"], "TPL")], [["src"], ["src", "puzzles"], ["templates"]]⟩

/-- State after `newday` for day 5 from `fs0`. -/
def fsC3 : FS :=
  ⟨[(["src", "puzzles", "day5.rs"], "TPL"), (["templates", "dayn.rs"], "TPL")],
   [["src"], ["src", "puzzles"], ["templates"], ["puzzles"], ["puzzles", "5"]]⟩

/-- Repository state in which `src/puzzles/day5.rs` was already written by hand. -/
def fsB : FS :=
  ⟨[(["templates", "dayn.rs"], "TPL"), (["src", "puzzles", "day5.rs"], "solved!")],
   [["src"], ["src", "puzzles"], ["templates"]]⟩

/-- Repository state with the template file missing. -/
def fsD : FS := ⟨[], [["src"], ["src", "puzzles"]]⟩

/-- Repository state in which the directory `src/puzzles` does not exist. -/
def fsE : FS := ⟨[(["templates", "dayn.rs"], "TPL")], [["src"]]⟩

/-- Repository state without the directory `puzzles`. -/
def fsC8 : FS := ⟨[(["templates", "dayn.rs"], "TPL")], [["src"], ["src", "puzzles"]]⟩

theorem lookupF_removeF (l : List (FPath × String)) (p q : FPath) (h : q ≠ p) :
    lookupF (removeF l p) q = lookupF l q := by
  induction l with
  | nil => rfl
  | cons hd tl ih =>
    obtain ⟨r, c⟩ := hd
    by_cases hr : r = p
    · subst hr
      have hrq : ¬ r = q := fun e => h e.symm
      simp [removeF, lookupF, hrq, ih]
    · by_cases hq : r = q
      · simp [removeF, lookupF, hr, hq, h]
      · simp [removeF, lookupF, hr, hq, ih]

theorem lookupF_setF_same (l : List (FPath × String)) (p : FPath) (c : String) :
    lookupF (setF l p c) p = some c := by
  simp [setF, lookupF]

theorem lookupF_setF_other (l : List (FPath × String)) (p q : FPath) (c : String)
    (h : q ≠ p) : lookupF (setF l p c) q = lookupF l q := by
  have hpq : ¬ p = q := fun e => h e.symm
  simp [setF, lookupF, hpq, lookupF_removeF l p q h]

theorem mem_insertD (ds : List FPath) (q p : FPath) :
    p ∈ insertD ds q ↔ p ∈ ds ∨ p = q := by
  unfold insertD
  by_cases h : q ∈ ds
  · rw [if_pos h]
    exact ⟨Or.inl, fun hx => hx.elim id (fun e => e ▸ h)⟩
  · rw [if_neg h]
    simp

theorem insertD_of_mem (ds : List FPath) (q : FPath) (h : q ∈ ds) :
    insertD ds q = ds := by
  simp [insertD, h]

theorem mkdirP_files (fs : FS) (p : FPath) : (mkdirP fs p).files = fs.files := rfl

theorem getFile_mkdirP (fs : FS) (p q : FPath) :
    getFile (mkdirP fs p) q = getFile fs q := rfl

theorem mkdirP_two_dirs (fs : FS) (a b : String) :
    (mkdirP fs [a, b]).dirs = insertD (insertD fs.dirs [a]) [a, b] := rfl

theorem mem_mkdirP_two (fs : FS) (a b : String) (p : FPath) :
    p ∈ (mkdirP fs [a, b]).dirs ↔ p ∈ fs.dirs ∨ p = [a] ∨ p = [a, b] := by
  rw [mkdirP_two_dirs, mem_insertD, mem_insertD]
  tauto

theorem mem_mkdirP_dayDir (fs : FS) (d : Int) (p : FPath) :
    p ∈ (mkdirP fs (dayDir d)).dirs ↔
      p ∈ fs.dirs ∨ p = ["puzzles"] ∨ p = ["puzzles", toString d] :=
  mem_mkdirP_two fs "puzzles" (toString d) p

theorem dayFile_ne_puzzles (d : Int) : dayFile d ≠ ["puzzles"] := by
  simp [dayFile]

theorem dayFile_ne_pdir (d : Int) (b : String) : dayFile d ≠ ["puzzles", b] := by
  simp [dayFile]

theorem dayFile_dropLast (d : Int) : (dayFile d).dropLast = ["src", "puzzles"] := rfl

theorem pathExists_mkdirP_dayDir (fs : FS) (d : Int) :
    pathExists (mkdirP fs (dayDir d)) (dayFile d) ↔ pathExists fs (dayFile d) := by
  unfold pathExists
  rw [getFile_mkdirP, mem_mkdirP_dayDir]
  constructor
  · rintro (h | h | h | h)
    · exact Or.inl h
    · exact Or.inr h
    · exact absurd h (dayFile_ne_puzzles d)
    · exact absurd h (dayFile_ne_pdir d _)
  · rintro (h | h)
    · exact Or.inl h
    · exact Or.inr (Or.inl h)

theorem mkdirP_noop (fs : FS) (a b : String) (h1 : [a] ∈ fs.dirs)
    (h2 : [a, b] ∈ fs.dirs) : mkdirP fs [a, b] = fs := by
  have hd : (mkdirP fs [a, b]).dirs = fs.dirs := by
    rw [mkdirP_two_dirs, insertD_of_mem fs.dirs [a] h1, insertD_of_mem fs.dirs [a, b] h2]
  exact FS.ext rfl hd

theorem newdayInt_of_exists (fs : FS) (d : Int)
    (hex : pathExists (mkdirP fs (dayDir d)) (dayFile d)) :
    newdayInt fs d = Except.ok (mkdirP fs (dayDir d)) := by
  unfold newdayInt
  rw [if_pos hex]

theorem newdayInt_of_cp_some (fs fs3 : FS) (d : Int)
    (hex : ¬ pathExists (mkdirP fs (dayDir d)) (dayFile d))
    (hcp : cp (mkdirP fs (dayDir d)) templateFile (dayFile d) = some fs3) :
    newdayInt fs d = Except.ok fs3 := by
  unfold newdayInt
  rw [if_neg hex, hcp]

theorem newdayInt_of_cp_none (fs : FS) (d : Int)
    (hex : ¬ pathExists (mkdirP fs (dayDir d)) (dayFile d))
    (hcp : cp (mkdirP fs (dayDir d)) templateFile (dayFile d) = none) :
    newdayInt fs d = Except.error (NewDayError.FilesystemError, mkdirP fs (dayDir d)) := by
  unfold newdayInt
  rw [if_neg hex, hcp]

theorem cp_some (fs fs2 : FS) (src dst : FPath) (h : cp fs src dst = some fs2) :
    ∃ t, getFile fs src = some t ∧ fs2 = { fs with files := setF fs.files dst t } := by
  unfold cp at h
  cases hs : getFile fs src with
  | none => rw [hs] at h; simp at h
  | some t =>
    rw [hs] at h
    simp only [Option.some_bind] at h
    by_cases hc : dst.dropLast = [] ∨ dst.dropLast ∈ fs.dirs
    · rw [if_pos hc] at h
      exact ⟨t, rfl, (Option.some_inj.mp h).symm⟩
    · rw [if_neg hc] at h
      simp at h

theorem cp_none_of_src (fs : FS) (src dst : FPath) (h : getFile fs src = none) :
    cp fs src dst = none := by
  unfold cp
  rw [h]
  rfl

theorem newdayInt_dirs (fs fs2 : FS) (d : Int) (h : newdayInt fs d = Except.ok fs2) :
    fs2.dirs = (mkdirP fs (dayDir d)).dirs := by
  unfold newdayInt at h
  by_cases hex : pathExists (mkdirP fs (dayDir d)) (dayFile d)
  · rw [if_pos hex] at h
    simp only [Except.ok.injEq] at h
    rw [← h]
  · rw [if_neg hex] at h
    cases hcp : cp (mkdirP fs (dayDir d)) templateFile (dayFile d) with
    | none => rw [hcp] at h; simp at h
    | some fs3 =>
      rw [hcp] at h
      simp only [Except.ok.injEq] at h
      obtain ⟨t, _, hfs3⟩ := cp_some _ _ _ _ hcp
      rw [← h, hfs3]

theorem newdayInt_exists_after (fs fs2 : FS) (d : Int)
    (h : newdayInt fs d = Except.ok fs2) : pathExists fs2 (dayFile d) := by
  unfold newdayInt at h
  by_cases hex : pathExists (mkdirP fs (dayDir d)) (dayFile d)
  · rw [if_pos hex] at h
    simp only [Except.ok.injEq] at h
    rw [← h]
    exact hex
  · rw [if_neg hex] at h
    cases hcp : cp (mkdirP fs (dayDir d)) templateFile (dayFile d) with
    | none => rw [hcp] at h; simp at h
    | some fs3 =>
      rw [hcp] at h
      simp only [Except.ok.injEq] at h
      obtain ⟨t, _, hfs3⟩ := cp_some _ _ _ _ hcp
      subst h
      subst hfs3
      exact Or.inl (by rw [show getFile { mkdirP fs (dayDir d) with
        files := setF (mkdirP fs (dayDir d)).files (dayFile d) t } (dayFile d) =
        some t from lookupF_setF_same _ _ _]; rfl)

/-- C1: if `src/puzzles/day<d>.rs` already exists with contents `c` before the
call, `newday` for day `d` succeeds, skips the copy entirely, and leaves the
file's contents unchanged. -/
theorem newday_existing_file_untouched (fs : FS) (d : Int) (c : String)
    (h : getFile fs (dayFile d) = some c) :
    newdayInt fs d = Except.ok (mkdirP fs (dayDir d)) ∧
    getFile (mkdirP fs (dayDir d)) (dayFile d) = some c := by
  have hg : getFile (mkdirP fs (dayDir d)) (dayFile d) = some c := by
    rw [getFile_mkdirP]; exact h
  have hex : pathExists (mkdirP fs (dayDir d)) (dayFile d) :=
    Or.inl (by rw [hg]; rfl)
  exact ⟨newdayInt_of_exists fs d hex, hg⟩

theorem newday_existing_file_untouched_w :
    getFile fsB (dayFile 5) = some "solved!" ∧
    newdayInt fsB 5 = Except.ok (mkdirP fsB (dayDir 5)) ∧
    getFile (mkdirP fsB (dayDir 5)) (dayFile 5) = some "solved!" := by
  have h : getFile fsB (dayFile 5) = some "solved!" := by decide
  exact ⟨h, (newday_existing_file_untouched fsB 5 "solved!" h).1,
         (newday_existing_file_untouched fsB 5 "solved!" h).2⟩

/-- C2: if `src/puzzles/day<d>.rs` is absent before the call and `newday`
for day `d` succeeds, the file exists afterwards with contents byte-for-byte
identical to `templates/dayn.rs`. -/
theorem newday_copies_template (fs fs2 : FS) (d : Int)
    (habs : ¬ pathExists fs (dayFile d))
    (hok : newdayInt fs d = Except.ok fs2) :
    ∃ t, getFile fs templateFile = some t ∧ getFile fs2 (dayFile d) = some t := by
  have habs1 : ¬ pathExists (mkdirP fs (dayDir d)) (dayFile d) :=
    fun hx => habs ((pathExists_mkdirP_dayDir fs d).1 hx)
  unfold newdayInt at hok
  rw [if_neg habs1] at hok
  cases hcp : cp (mkdirP fs (dayDir d)) templateFile (dayFile d) with
  | none => rw [hcp] at hok; simp at hok
  | some fs3 =>
    rw [hcp] at hok
    simp only [Except.ok.injEq] at hok
    obtain ⟨t, ht, hfs3⟩ := cp_some _ _ _ _ hcp
    refine ⟨t, by rw [getFile_mkdirP] at ht; exact ht, ?_⟩
    rw [← hok, hfs3]
    exact lookupF_setF_same _ _ _

theorem newday_copies_template_w :
    ¬ pathExists fs0 (dayFile 5) ∧ newdayInt fs0 5 = Except.ok fsC3 ∧
    ∃ t, getFile fs0 templateFile = some t ∧ getFile fsC3 (dayFile 5) = some t := by
  have h1 : ¬ pathExists fs0 (dayFile 5) := by decide
  have h2 : newdayInt fs0 5 = Except.ok fsC3 := by rfl
  exact ⟨h1, h2, newday_copies_template fs0 fsC3 5 h1 h2⟩

/-- C5: when the day argument cannot be parsed as an integer, `newday` fails
with `InvalidArgument` and performs no filesystem change at all: the state
carried by the error is the unmodified input state. -/
theorem newday_invalid_arg (fs : FS) (s : String) (h : pyInt s = none) :
    newday fs s = Except.error (NewDayError.InvalidArgument, fs) := by
  unfold newday
  rw [h]

theorem newday_invalid_arg_w :
    pyInt "abc" = none ∧
    newday fs0 "abc" = Except.error (NewDayError.InvalidArgument, fs0) := by
  have h : pyInt "abc" = none := by decide
  exact ⟨h, newday_invalid_arg fs0 "abc" h⟩

/-- C6: when the template `templates/dayn.rs` is missing and the destination
file is absent, `newday` for day `d` creates the directory `puzzles/<d>/`
(which remains in the error state, with no rollback) and then fails at the
copy step with a `FilesystemError` that propagates immediately. -/
theorem newday_template_missing (fs : FS) (d : Int)
    (ht : getFile fs templateFile = none)
    (habs : ¬ pathExists fs (dayFile d)) :
    newdayInt fs d = Except.error (NewDayError.FilesystemError, mkdirP fs (dayDir d)) ∧
    dayDir d ∈ (mkdirP fs (dayDir d)).dirs ∧
    ["puzzles"] ∈ (mkdirP fs (dayDir d)).dirs := by
  have habs1 : ¬ pathExists (mkdirP fs (dayDir d)) (dayFile d) :=
    fun hx => habs ((pathExists_mkdirP_dayDir fs d).1 hx)
  have ht1 : getFile (mkdirP fs (dayDir d)) templateFile = none := by
    rw [getFile_mkdirP]; exact ht
  exact ⟨newdayInt_of_cp_none fs d habs1 (cp_none_of_src _ _ _ ht1),
         (mem_mkdirP_dayDir fs d _).2 (Or.inr (Or.inr rfl)),
         (mem_mkdirP_dayDir fs d _).2 (Or.inr (Or.inl rfl))⟩

theorem newday_template_missing_w :
    getFile fsD templateFile = none ∧ ¬ pathExists fsD (dayFile 7) ∧
    newdayInt fsD 7 = Except.error (NewDayError.FilesystemError, mkdirP fsD (dayDir 7)) ∧
    dayDir 7 ∈ (mkdirP fsD (dayDir 7)).dirs := by
  have h1 : getFile fsD templateFile = none := by decide
  have h2 : ¬ pathExists fsD (dayFile 7) := by decide
  exact ⟨h1, h2, (newday_template_missing fsD 7 h1 h2).1,
         (newday_template_missing fsD 7 h1 h2).2.1⟩

/-- C10: if the destination file is absent and the directory `src/puzzles`
does not exist, the copy step fails: `newday` for day `d` creates
`puzzles/<d>/` but never creates `src/puzzles`, and the run ends in a
`FilesystemError` right after the directory-creation step. -/
theorem newday_missing_parent_dir (fs : FS) (d : Int)
    (habs : ¬ pathExists fs (dayFile d))
    (hpar : ["src", "puzzles"] ∉ fs.dirs) :
    newdayInt fs d = Except.error (NewDayError.FilesystemError, mkdirP fs (dayDir d)) ∧
    dayDir d ∈ (mkdirP fs (dayDir d)).dirs ∧
    ["src", "puzzles"] ∉ (mkdirP fs (dayDir d)).dirs := by
  have habs1 : ¬ pathExists (mkdirP fs (dayDir d)) (dayFile d) :=
    fun hx => habs ((pathExists_mkdirP_dayDir fs d).1 hx)
  have hparm : ["src", "puzzles"] ∉ (mkdirP fs (dayDir d)).dirs := by
    rw [mem_mkdirP_dayDir]
    rintro (h | h | h)
    · exact hpar h
    · simp at h
    · have : "src" = "puzzles" := (List.cons.injEq _ _ _ _ ▸ h).1
      simp at this
  have hcpn : cp (mkdirP fs (dayDir d)) templateFile (dayFile d) = none := by
    unfold cp
    cases hs : getFile fs templateFile with
    | none => rw [getFile_mkdirP, hs]; rfl
    | some t =>
      rw [getFile_mkdirP, hs]
      have hcond : ¬ ((dayFile d).dropLast = [] ∨
          (dayFile d).dropLast ∈ (mkdirP fs (dayDir d)).dirs) := by
        rw [dayFile_dropLast]
        rintro (h | h)
        · simp at h
        · exact hparm h
      simp [hcond]
  exact ⟨newdayInt_of_cp_none fs d habs1 hcpn,
         (mem_mkdirP_dayDir fs d _).2 (Or.inr (Or.inr rfl)), hparm⟩

theorem newday_missing_parent_dir_w :
    ¬ pathExists fsE (dayFile 7) ∧ ["src", "puzzles"] ∉ fsE.dirs ∧
    newdayInt fsE 7 = Except.error (NewDayError.FilesystemError, mkdirP fsE (dayDir 7)) ∧
    ["src", "puzzles"] ∉ (mkdirP fsE (dayDir 7)).dirs := by
  have h1 : ¬ pathExists fsE (dayFile 7) := by decide
  have h2 : ["src", "puzzles"] ∉ fsE.dirs := by decide
  exact ⟨h1, h2, (newday_missing_parent_dir fsE 7 h1 h2).1,
         (newday_missing_parent_dir fsE 7 h1 h2).2.2⟩

/-- C3: `newday` is idempotent.  After a successful run for day `d`, running
it again returns the very same state; and if the per-day file is manually
edited to contents `c` between the two runs, the second run leaves the edited
state entirely unchanged. -/
theorem newday_idempotent (fs fs1 : FS) (d : Int) (c : String)
    (h : newdayInt fs d = Except.ok fs1) :
    newdayInt fs1 d = Except.ok fs1 ∧
    newdayInt ⟨setF fs1.files (dayFile d) c, fs1.dirs⟩ d =
      Except.ok ⟨setF fs1.files (dayFile d) c, fs1.dirs⟩ := by
  have hdirs := newdayInt_dirs fs fs1 d h
  have hp1 : ["puzzles"] ∈ fs1.dirs := by
    rw [hdirs]
    exact (mem_mkdirP_dayDir fs d _).2 (Or.inr (Or.inl rfl))
  have hp2 : ["puzzles", toString d] ∈ fs1.dirs := by
    rw [hdirs]
    exact (mem_mkdirP_dayDir fs d _).2 (Or.inr (Or.inr rfl))
  have hex := newdayInt_exists_after fs fs1 d h
  constructor
  · have hmk : mkdirP fs1 (dayDir d) = fs1 :=
      mkdirP_noop fs1 "puzzles" (toString d) hp1 hp2
    unfold newdayInt
    rw [hmk, if_pos hex]
  · have hmkE : mkdirP (⟨setF fs1.files (dayFile d) c, fs1.dirs⟩ : FS) (dayDir d) =
        (⟨setF fs1.files (dayFile d) c, fs1.dirs⟩ : FS) :=
      mkdirP_noop _ "puzzles" (toString d) hp1 hp2
    have hexE : pathExists (⟨setF fs1.files (dayFile d) c, fs1.dirs⟩ : FS) (dayFile d) := by
      refine Or.inl ?_
      have : getFile (⟨setF fs1.files (dayFile d) c, fs1.dirs⟩ : FS) (dayFile d) = some c :=
        lookupF_setF_same _ _ _
      rw [this]
      rfl
    unfold newdayInt
    rw [hmkE, if_pos hexE]

theorem newday_idempotent_w :
    newdayInt fs0 5 = Except.ok fsC3 ∧ newdayInt fsC3 5 = Except.ok fsC3 ∧
    newdayInt ⟨setF fsC3.files (dayFile 5) "edited", fsC3.dirs⟩ 5 =
      Except.ok ⟨setF fsC3.files (dayFile 5) "edited", fsC3.dirs⟩ := by
  have h : newdayInt fs0 5 = Except.ok fsC3 := by rfl
  exact ⟨h, (newday_idempotent fs0 fsC3 5 "edited" h).1,
         (newday_idempotent fs0 fsC3 5 "edited" h).2⟩

/-- C4: after a successful run for day `d`, the directory `puzzles/<d>/`
exists; the creation is recursive (the parent `puzzles/` is created too),
and when the directories already existed the run changes no directory at
all (no error, no duplicate effect). -/
theorem newday_creates_dir (fs fs2 : FS) (d : Int)
    (h : newdayInt fs d = Except.ok fs2) :
    dayDir d ∈ fs2.dirs ∧ ["puzzles"] ∈ fs2.dirs ∧
    (["puzzles"] ∈ fs.dirs → dayDir d ∈ fs.dirs → fs2.dirs = fs.dirs) := by
  have hdirs := newdayInt_dirs fs fs2 d h
  refine ⟨?_, ?_, ?_⟩
  · rw [hdirs]
    exact (mem_mkdirP_dayDir fs d _).2 (Or.inr (Or.inr rfl))
  · rw [hdirs]
    exact (mem_mkdirP_dayDir fs d _).2 (Or.inr (Or.inl rfl))
  · intro hp hq
    rw [hdirs]
    show (mkdirP fs ["puzzles", toString d]).dirs = fs.dirs
    rw [mkdirP_two_dirs, insertD_of_mem fs.dirs ["puzzles"] hp,
        insertD_of_mem fs.dirs ["puzzles", toString d] hq]

theorem newday_creates_dir_w :
    newdayInt fs0 5 = Except.ok fsC3 ∧ dayDir 5 ∈ fsC3.dirs ∧
    ["puzzles"] ∈ fsC3.dirs := by
  have h : newdayInt fs0 5 = Except.ok fsC3 := by rfl
  exact ⟨h, (newday_creates_dir fs0 fsC3 5 h).1, (newday_creates_dir fs0 fsC3 5 h).2.1⟩

theorem newdayInt_no_invalid (fs fs2 : FS) (d : Int) :
    newdayInt fs d ≠ Except.error (NewDayError.InvalidArgument, fs2) := by
  unfold newdayInt
  split
  · intro hc
    exact Except.noConfusion hc
  · split
    · intro hc
      exact Except.noConfusion hc
    · intro hc
      simp at hc

/-- C7 counterexample: the string `"-3"` parses to the negative integer
`-3`, and `newday` accepts it and scaffolds the day directory named `-3`
under `puzzles` and the file `src/puzzles/day-3.rs` — negative days are
not rejected. -/
theorem newday_accepts_negative_cex :
    pyInt "-3" = some (-3) ∧
    newday fs0 "-3" =
      Except.ok ⟨[(["src", "puzzles", "day-3.rs"], "TPL"), (["templates", "dayn.rs"], "TPL")],
                 [["src"], ["src", "puzzles"], ["templates"], ["puzzles"], ["puzzles", "-3"]]⟩ := by
  exact ⟨by decide, by rfl⟩

/-- C7 (amended): the day value must be parseable as an integer (optional
sign allowed); any integer, negative ones included, is inside the accepted
domain — `newday` fails with `InvalidArgument` exactly when parsing fails. -/
theorem newday_rejects_iff_unparseable (fs : FS) (s : String) :
    newday fs s = Except.error (NewDayError.InvalidArgument, fs) ↔ pyInt s = none := by
  unfold newday
  cases h : pyInt s with
  | none => simp
  | some d =>
    constructor
    · intro hc
      exact absurd hc (newdayInt_no_invalid fs fs d)
    · intro hn
      exact Option.noConfusion hn

/-- C8 counterexample: starting without a `puzzles` directory, `newday` for
day 5 creates the path `puzzles` — a path distinct from both
`puzzles/5/` and `src/puzzles/day5.rs` — so a path outside the two listed
write targets changes. -/
theorem newday_creates_parent_cex :
    ["puzzles"] ∉ fsC8.dirs ∧ (["puzzles"] : FPath) ≠ dayDir 5 ∧
    (["puzzles"] : FPath) ≠ dayFile 5 ∧ ["puzzles"] ∈ (runNewday fsC8 5).dirs := by
  exact ⟨by decide, by decide, by decide, by decide⟩

/-- C8 (amended): `newday` for day `d` writes only the directories
`puzzles/` and `puzzles/<d>/` and the file `src/puzzles/day<d>.rs`: any
other path keeps its file contents and its directory status, whether the
run succeeds or fails. -/
theorem newday_frame (fs : FS) (d : Int) (p : FPath)
    (h1 : p ≠ ["puzzles"]) (h2 : p ≠ dayDir d) (h3 : p ≠ dayFile d) :
    getFile (runNewday fs d) p = getFile fs p ∧
    (p ∈ (runNewday fs d).dirs ↔ p ∈ fs.dirs) := by
  have hmem : p ∈ (mkdirP fs (dayDir d)).dirs ↔ p ∈ fs.dirs := by
    rw [mem_mkdirP_dayDir]
    constructor
    · rintro (hx | hx | hx)
      · exact hx
      · exact absurd hx h1
      · exact absurd hx h2
    · exact Or.inl
  by_cases hex : pathExists (mkdirP fs (dayDir d)) (dayFile d)
  · have hr : runNewday fs d = mkdirP fs (dayDir d) := by
      unfold runNewday
      rw [newdayInt_of_exists fs d hex]
    rw [hr]
    exact ⟨rfl, hmem⟩
  · cases hcp : cp (mkdirP fs (dayDir d)) templateFile (dayFile d) with
    | some fs3 =>
      have hr : runNewday fs d = fs3 := by
        unfold runNewday
        rw [newdayInt_of_cp_some fs fs3 d hex hcp]
      obtain ⟨t, ht, hfs3⟩ := cp_some _ _ _ _ hcp
      rw [hr, hfs3]
      exact ⟨lookupF_setF_other _ (dayFile d) p t h3, hmem⟩
    | none =>
      have hr : runNewday fs d = mkdirP fs (dayDir d) := by
        unfold runNewday
        rw [newdayInt_of_cp_none fs d hex hcp]
      rw [hr]
      exact ⟨rfl, hmem⟩

theorem newday_frame_w :
    templateFile ≠ (["puzzles"] : FPath) ∧ templateFile ≠ dayDir 5 ∧
    templateFile ≠ dayFile 5 ∧
    getFile (runNewday fs0 5) templateFile = getFile fs0 templateFile ∧
    (templateFile ∈ (runNewday fs0 5).dirs ↔ templateFile ∈ fs0.dirs) := by
  have h1 : templateFile ≠ (["puzzles"] : FPath) := by decide
  have h2 : templateFile ≠ dayDir 5 := by decide
  have h3 : templateFile ≠ dayFile 5 := by decide
  exact ⟨h1, h2, h3, (newday_frame fs0 5 templateFile h1 h2 h3).1,
         (newday_frame fs0 5 templateFile h1 h2 h3).2⟩

/-- C9: the day argument is canonicalized before any path is built: a run
on a string `s` that parses to the integer `d` behaves exactly like the run
on `d` itself, whose two paths are the canonical `puzzles/<d>/` and
`src/puzzles/day<d>.rs` with `<d>` in canonical decimal form. -/
theorem newday_canonicalizes (fs : FS) (s : String) (d : Int)
    (h : pyInt s = some d) :
    newday fs s = newdayInt fs d ∧ dayDir d = ["puzzles", toString d] ∧
    dayFile d = ["src", "puzzles", "day" ++ toString d ++ ".rs"] := by
  unfold newday
  rw [h]
  exact ⟨rfl, rfl, rfl⟩

theorem newday_canonicalizes_w :
    (pyInt "07" = some 7 ∧ newday fs0 "07" = newdayInt fs0 7) ∧
    (pyInt " 7 " = some 7 ∧ newday fs0 " 7 " = newdayInt fs0 7) ∧
    (pyInt "+7" = some 7 ∧ newday fs0 "+7" = newdayInt fs0 7) ∧
    (pyInt "7" = some 7 ∧ newday fs0 "7" = newdayInt fs0 7) := by
  have h1 : pyInt "07" = some 7 := by decide
  have h2 : pyInt " 7 " = some 7 := by decide
  have h3 : pyInt "+7" = some 7 := by decide
  have h4 : pyInt "7" = some 7 := by decide
  exact ⟨⟨h1, (newday_canonicalizes fs0 "07" 7 h1).1⟩,
         ⟨h2, (newday_canonicalizes fs0 " 7 " 7 h2).1⟩,
         ⟨h3, (newday_canonicalizes fs0 "+7" 7 h3).1⟩,
         ⟨h4, (newday_canonicalizes fs0 "7" 7 h4).1⟩⟩

end Tasks
